import Mathlib

/-!
Verification development for the jsonrpsee client-side JSON-RPC 2.0 engine.

The first part embeds the wire types of `types/src/jsonrpc/request.rs`
(`MethodCall`, `Notification`, `Call`, `Request`) together with the serde
serialization and deserialization semantics they derive (field order,
`deny_unknown_fields`, `untagged` first-match, `default` fields).  The second
part embeds the background multiplexer of the WebSocket client, modelled from
the specification.
-/

namespace Jsonrpsee

/-- JSON value model: the shape of `serde_json::Value` restricted to integer
numbers (the only numbers the claims touch).  Objects keep field order. -/
inductive Json where
  | null
  | bool (b : Bool)
  | num (n : Int)
  | str (s : String)
  | arr (elems : List Json)
  | obj (fields : List (String × Json))
  deriving Repr

mutual

/-- Structural equality test for `Json`, recursing through the nested lists. -/
def Json.beq : Json → Json → Bool
  | .null, .null => true
  | .bool a, .bool b => a == b
  | .num a, .num b => a == b
  | .str a, .str b => a == b
  | .arr a, .arr b => Json.beqList a b
  | .obj a, .obj b => Json.beqFields a b
  | _, _ => false

/-- Structural equality test for lists of `Json`. -/
def Json.beqList : List Json → List Json → Bool
  | [], [] => true
  | x :: xs, y :: ys => Json.beq x y && Json.beqList xs ys
  | _, _ => false

/-- Structural equality test for `Json` object field lists. -/
def Json.beqFields : List (String × Json) → List (String × Json) → Bool
  | [], [] => true
  | (k, v) :: xs, (l, w) :: ys => k == l && Json.beq v w && Json.beqFields xs ys
  | _, _ => false

end

mutual

theorem Json.beq_iff : ∀ a b : Json, Json.beq a b = true ↔ a = b
  | .null, .null => by simp [Json.beq]
  | .bool _, .bool _ => by simp [Json.beq]
  | .num _, .num _ => by simp [Json.beq]
  | .str _, .str _ => by simp [Json.beq]
  | .arr x, .arr y => by simp [Json.beq, Json.beqList_iff x y]
  | .obj x, .obj y => by simp [Json.beq, Json.beqFields_iff x y]
  | .null, .bool _ | .null, .num _ | .null, .str _ | .null, .arr _ | .null, .obj _
  | .bool _, .null | .bool _, .num _ | .bool _, .str _ | .bool _, .arr _ | .bool _, .obj _
  | .num _, .null | .num _, .bool _ | .num _, .str _ | .num _, .arr _ | .num _, .obj _
  | .str _, .null | .str _, .bool _ | .str _, .num _ | .str _, .arr _ | .str _, .obj _
  | .arr _, .null | .arr _, .bool _ | .arr _, .num _ | .arr _, .str _ | .arr _, .obj _
  | .obj _, .null | .obj _, .bool _ | .obj _, .num _ | .obj _, .str _ | .obj _, .arr _ =>
    by simp [Json.beq]

theorem Json.beqList_iff : ∀ a b : List Json, Json.beqList a b = true ↔ a = b
  | [], [] => by simp [Json.beqList]
  | [], _ :: _ => by simp [Json.beqList]
  | _ :: _, [] => by simp [Json.beqList]
  | x :: xs, y :: ys => by
    simp [Json.beqList, Json.beq_iff x y, Json.beqList_iff xs ys]

theorem Json.beqFields_iff :
    ∀ a b : List (String × Json), Json.beqFields a b = true ↔ a = b
  | [], [] => by simp [Json.beqFields]
  | [], _ :: _ => by simp [Json.beqFields]
  | _ :: _, [] => by simp [Json.beqFields]
  | (k, v) :: xs, (l, w) :: ys => by
    simp [Json.beqFields, Json.beq_iff v w, Json.beqFields_iff xs ys, and_assoc]

end

instance : DecidableEq Json := fun a b =>
  decidable_of_iff (Json.beq a b = true) (Json.beq_iff a b)

/-- Hexadecimal digit for `serde_json`'s `\uXXXX` escapes. -/
def hexDigit (n : Nat) : Char :=
  if n < 10 then Char.ofNat (48 + n) else Char.ofNat (87 + n)

/-- Four-digit hexadecimal rendering used by `serde_json` for control
characters inside JSON strings. -/
def hex4 (n : Nat) : String :=
  String.mk [hexDigit (n / 4096 % 16), hexDigit (n / 256 % 16),
             hexDigit (n / 16 % 16), hexDigit (n % 16)]

/-- Escape of a single character inside a JSON string literal, following the
escaping rules of `serde_json`'s compact serializer. -/
def escapeJsonChar (c : Char) : String :=
  if c = '"' then "\\\""
  else if c = '\\' then "\\\\"
  else if c = '\x08' then "\\b"
  else if c = '\x0c' then "\\f"
  else if c = '\n' then "\\n"
  else if c = '\r' then "\\r"
  else if c = '\t' then "\\t"
  else if c.toNat < 32 then "\\u" ++ hex4 c.toNat
  else String.singleton c

/-- JSON string literal with surrounding quotes, as emitted by `serde_json`. -/
def jsonStrLit (s : String) : String :=
  "\"" ++ String.join (s.data.map escapeJsonChar) ++ "\""

mutual

/-- Compact serialization of a JSON value: the output of
`serde_json::to_string` (no whitespace, fields in stored order). -/
def Json.toCompactString : Json → String
  | .null => "null"
  | .bool true => "true"
  | .bool false => "false"
  | .num n => toString n
  | .str s => jsonStrLit s
  | .arr xs => "[" ++ Json.arrToString xs ++ "]"
  | .obj fs => "\x7b" ++ Json.objToString fs ++ "\x7d"

/-- Comma-separated serialization of the elements of a JSON array. -/
def Json.arrToString : List Json → String
  | [] => ""
  | [x] => Json.toCompactString x
  | x :: y :: xs => Json.toCompactString x ++ "," ++ Json.arrToString (y :: xs)

/-- Comma-separated serialization of the fields of a JSON object. -/
def Json.objToString : List (String × Json) → String
  | [] => ""
  | [(k, v)] => jsonStrLit k ++ ":" ++ Json.toCompactString v
  | (k, v) :: f :: fs =>
    jsonStrLit k ++ ":" ++ Json.toCompactString v ++ "," ++ Json.objToString (f :: fs)

end

/-- Protocol version from `types/src/jsonrpc`: the constant literal `"2.0"`.
The single variant `V2` serializes to the JSON string `"2.0"` and
deserializes only from it. -/
inductive Version where
  | V2
  deriving Repr, DecidableEq

/-- Request identifier from `types/src/jsonrpc`: null, an unsigned integer,
or a string (serde `untagged`). -/
inductive Id where
  | Null
  | Num (n : Nat)
  | Str (s : String)
  deriving Repr, DecidableEq

/-- Call parameters from `types/src/jsonrpc`: absent, a positional array, or
a by-name map (serde `untagged`; the unit variant `None` maps to JSON
null). -/
inductive Params where
  | None
  | Array (elems : List Json)
  | Map (fields : List (String × Json))
  deriving Repr, DecidableEq

/-- Serialization of `Version`. -/
def Version.toJson : Version → Json
  | .V2 => Json.str "2.0"

/-- Deserialization of `Version`: only the exact string `"2.0"` is
accepted. -/
def Version.fromJson : Json → Option Version
  | Json.str s => if s = "2.0" then some Version.V2 else none
  | _ => none

/-- Serialization of `Id` (serde `untagged`). -/
def Id.toJson : Id → Json
  | .Null => Json.null
  | .Num n => Json.num (Int.ofNat n)
  | .Str s => Json.str s

/-- Deserialization of `Id` (serde `untagged`): JSON null, an unsigned
integer, or a string; anything else (booleans, negative numbers, arrays,
objects) is rejected. -/
def Id.fromJson : Json → Option Id
  | Json.null => some Id.Null
  | Json.num n => if 0 ≤ n then some (Id.Num n.toNat) else none
  | Json.str s => some (Id.Str s)
  | _ => none

/-- Serialization of `Params` (serde `untagged`; `None` becomes JSON
null). -/
def Params.toJson : Params → Json
  | .None => Json.null
  | .Array xs => Json.arr xs
  | .Map fs => Json.obj fs

/-- Deserialization of `Params` (serde `untagged`): null yields `None`, an
array yields `Array`, an object yields `Map`; anything else is rejected. -/
def Params.fromJson : Json → Option Params
  | Json.null => some Params.None
  | Json.arr xs => some (Params.Array xs)
  | Json.obj fs => some (Params.Map fs)
  | _ => none

/-- The `MethodCall` struct of `types/src/jsonrpc/request.rs`: a method call
carrying an id.  serde derives `Serialize`/`Deserialize` with
`deny_unknown_fields` and `params` defaulting to `Params::None`. -/
structure MethodCall where
  jsonrpc : Version
  method : String
  params : Params
  id : Id
  deriving Repr, DecidableEq

/-- The `Notification` struct of `types/src/jsonrpc/request.rs`: a method
call without an id.  serde derives with `deny_unknown_fields` and `params`
defaulting to `Params::None`. -/
structure Notification where
  jsonrpc : Version
  method : String
  params : Params
  deriving Repr, DecidableEq

/-- The `Call` enum of `types/src/jsonrpc/request.rs` (serde `untagged`):
a method call, a notification, or an invalid call that records only an id
(defaulting to `Id::Null`). -/
inductive Call where
  | MethodCall (m : MethodCall)
  | Notification (n : Notification)
  | Invalid (id : Id)
  deriving Repr, DecidableEq

/-- The `Request` enum of `types/src/jsonrpc/request.rs` (serde `untagged`):
a single call or a batch of calls. -/
inductive Request where
  | Single (c : Call)
  | Batch (cs : List Call)
  deriving Repr, DecidableEq

/-- First value stored under key `k` in a JSON object's field list, the way
serde's map visitor finds a struct field. -/
def lookupField (fs : List (String × Json)) (k : String) : Option Json :=
  match fs with
  | [] => none
  | (l, v) :: rest => if k = l then some v else lookupField rest k

/-- True when no key occurs twice in the field list; serde's derived struct
deserializers reject duplicate fields. -/
def nodupKeys (fs : List (String × Json)) : Bool :=
  match fs with
  | [] => true
  | (k, _) :: rest => !(rest.any (fun p => p.1 = k)) && nodupKeys rest

/-- True when every key of the field list belongs to `allowed`; with
`deny_unknown_fields`, serde rejects any other key. -/
def keysAllowed (allowed : List String) (fs : List (String × Json)) : Bool :=
  fs.all (fun p => allowed.contains p.1)

/-- Serialization of `MethodCall`: fields in declaration order
`jsonrpc`, `method`, `params`, `id`. -/
def MethodCall.toJson (m : MethodCall) : Json :=
  Json.obj [("jsonrpc", m.jsonrpc.toJson), ("method", Json.str m.method),
            ("params", m.params.toJson), ("id", m.id.toJson)]

/-- Serialization of `Notification`: fields in declaration order
`jsonrpc`, `method`, `params`. -/
def Notification.toJson (n : Notification) : Json :=
  Json.obj [("jsonrpc", n.jsonrpc.toJson), ("method", Json.str n.method),
            ("params", n.params.toJson)]

/-- Serialization of `Call` (serde `untagged`: the active variant's own
form). -/
def Call.toJson : Call → Json
  | .MethodCall m => m.toJson
  | .Notification n => n.toJson
  | .Invalid i => Json.obj [("id", i.toJson)]

/-- Serialization of `Request` (serde `untagged`). -/
def Request.toJson : Request → Json
  | .Single c => c.toJson
  | .Batch cs => Json.arr (cs.map Call.toJson)

/-- Deserialization of `MethodCall`: a JSON object whose keys are exactly a
duplicate-free subset of `jsonrpc`, `method`, `params`, `id`
(`deny_unknown_fields`); `jsonrpc`, `method` and `id` are required, `params`
defaults to `Params::None` when omitted. -/
def MethodCall.fromJson : Json → Option MethodCall
  | Json.obj fs =>
    if nodupKeys fs && keysAllowed ["jsonrpc", "method", "params", "id"] fs then
      match lookupField fs "jsonrpc", lookupField fs "method", lookupField fs "id" with
      | some jv, some (Json.str m), some iv =>
        match Version.fromJson jv, Id.fromJson iv with
        | some ver, some i =>
          match lookupField fs "params" with
          | Option.none => some ⟨ver, m, Params.None, i⟩
          | some pv => (Params.fromJson pv).map (fun p => ⟨ver, m, p, i⟩)
        | _, _ => none
      | _, _, _ => none
    else none
  | _ => none

/-- Deserialization of `Notification`: as `MethodCall.fromJson` but the
allowed keys are only `jsonrpc`, `method`, `params`; in particular any
object carrying an `id` field is rejected. -/
def Notification.fromJson : Json → Option Notification
  | Json.obj fs =>
    if nodupKeys fs && keysAllowed ["jsonrpc", "method", "params"] fs then
      match lookupField fs "jsonrpc", lookupField fs "method" with
      | some jv, some (Json.str m) =>
        match Version.fromJson jv with
        | some ver =>
          match lookupField fs "params" with
          | Option.none => some ⟨ver, m, Params.None⟩
          | some pv => (Params.fromJson pv).map (fun p => ⟨ver, m, p⟩)
        | Option.none => none
      | _, _ => none
    else none
  | _ => none

/-- Deserialization of the `Invalid` variant of `Call`: any JSON object
whose `id` field occurs at most once; the `id` must be a valid `Id` when
present and defaults to `Id::Null` when absent.  Other fields are ignored
(no `deny_unknown_fields` on this variant), but a duplicated `id` field is
a serde duplicate-field error. -/
def invalidFromJson : Json → Option Call
  | Json.obj fs =>
    if fs.countP (fun p => p.1 == "id") ≤ 1 then
      match lookupField fs "id" with
      | Option.none => some (Call.Invalid Id.Null)
      | some iv => (Id.fromJson iv).map Call.Invalid
    else none
  | _ => none

/-- Deserialization of `Call` (serde `untagged`): the variants are tried in
declaration order — `MethodCall`, then `Notification`, then `Invalid`. -/
def Call.fromJson (j : Json) : Option Call :=
  match MethodCall.fromJson j with
  | some m => some (Call.MethodCall m)
  | Option.none =>
    match Notification.fromJson j with
    | some n => some (Call.Notification n)
    | Option.none => invalidFromJson j

/-- Deserialization of every element of a batch; the whole batch fails
exactly when some element fails on its own. -/
def decodeCalls : List Json → Option (List Call)
  | [] => some []
  | x :: xs =>
    match Call.fromJson x, decodeCalls xs with
    | some c, some cs => some (c :: cs)
    | _, _ => none

/-- Deserialization of `Request` (serde `untagged`): first `Single`, then
`Batch`. -/
def Request.fromJson (j : Json) : Option Request :=
  match Call.fromJson j with
  | some c => some (Request.Single c)
  | Option.none =>
    match j with
    | Json.arr xs => (decodeCalls xs).map Request.Batch
    | _ => none

/-- Parse error code from `types/src/v2/error.rs`. -/
def PARSE_ERROR_CODE : Int := -32700

/-- Internal error code from `types/src/v2/error.rs`. -/
def INTERNAL_ERROR_CODE : Int := -32603

/-- Invalid params error code from `types/src/v2/error.rs`. -/
def INVALID_PARAMS_CODE : Int := -32602

/-- Invalid request error code from `types/src/v2/error.rs`. -/
def INVALID_REQUEST_CODE : Int := -32600

/-- Method not found error code from `types/src/v2/error.rs`. -/
def METHOD_NOT_FOUND_CODE : Int := -32601

/-- Method not found message from `types/src/v2/error.rs`. -/
def METHOD_NOT_FOUND_MSG : String := "Method not found"

/-- Request identifier as used by the client's registries: the client only
emits unsigned integers drawn from the bounded pool. -/
abbrev RequestId := Nat

/-- Server-assigned subscription identifier: a string or an integer. -/
inductive SubId where
  | Num (n : Nat)
  | Str (s : String)
  deriving Repr, DecidableEq

/-- A JSON-RPC error object returned by the server:
`{ code, message, data? }` with `data` omitted here (no claim touches it). -/
structure RpcErrorObj where
  code : Int
  message : String
  deriving Repr, DecidableEq

/-- Outcome of one server reply to one request id: a result value or an
error object. -/
inductive RpcOutcome where
  | ok (v : Json)
  | err (e : RpcErrorObj)
  deriving Repr, DecidableEq

/-- Client-side error kinds surfaced to callers, following
`types/src/error.rs` (restricted to the variants the multiplexer model
produces). -/
inductive ClientError where
  | Request (e : RpcErrorObj)
  | RestartNeeded (reason : String)
  | MaxSlotsExceeded
  | InvalidSubscriptionId
  | SubscriptionNameConflict (m : String)
  deriving Repr, DecidableEq

/-- Modelled from the spec: the per-pending-call record the multiplexer
owns — a plain single request or a pending subscribe carrying the
unsubscribe method (batch children live in a separate registry). -/
inductive Waiter where
  | Single
  | SubscribeReq (unsubMethod : String)
  deriving Repr, DecidableEq

/-- Lookup in an association list keyed by decidable-equality keys; first
match wins. -/
def assocLookup {κ α : Type} [DecidableEq κ] : List (κ × α) → κ → Option α
  | [], _ => none
  | (k, a) :: rest, q => if q = k then some a else assocLookup rest q

/-- Removal of every entry with the given key from an association list. -/
def assocRemove {κ α : Type} [DecidableEq κ] : List (κ × α) → κ → List (κ × α)
  | [], _ => []
  | (k, a) :: rest, q =>
    if q = k then assocRemove rest q else (k, a) :: assocRemove rest q

/-- Update of the value stored under a key in an association list. -/
def assocUpdate {κ α : Type} [DecidableEq κ] (l : List (κ × α)) (q : κ) (f : α → α) :
    List (κ × α) :=
  l.map (fun p => if p.1 = q then (p.1, f p.2) else p)

/-- Modelled from the spec: commands the frontend façade submits to the
background multiplexer over the command channel. -/
inductive Command where
  | StartRequest (method : String) (params : Params)
  | StartBatch (calls : List (String × Params))
  | StartSubscribe (subMethod : String) (params : Params) (unsubMethod : String)
  | StartUnsubscribe (sub : SubId)
  | SendNotification (method : String) (params : Params)
  deriving Repr, DecidableEq

/-- Modelled from the spec: inputs the multiplexer's event loop races over —
frontend commands and incoming transport frames (a single response, or a
server-pushed subscription notification; a server batch is decomposed into
its constituent frames and processed element by element). -/
inductive MuxInput where
  | command (c : Command)
  | frameResponse (wireId : Id) (out : RpcOutcome)
  | frameSubNotif (sub : SubId) (payload : Json)
  deriving Repr, DecidableEq

/-- Modelled from the spec: observable effects of one multiplexer step —
completions delivered to waiters, frames written to the transport, and
rejections of commands that never got an id. -/
inductive MuxEvent where
  | answerOk (rid : RequestId) (v : Json)
  | answerErr (rid : RequestId) (e : ClientError)
  | answerBatch (bid : Nat) (vs : List RpcOutcome)
  | answerBatchErr (bid : Nat) (e : ClientError)
  | subscribed (rid : RequestId) (sub : SubId)
  | notifSent
  | rejected (e : ClientError)
  | transportWrite (frame : Json)
  deriving Repr, DecidableEq

/-- Modelled from the spec: the state owned by the background multiplexer —
the request registry (pending single/subscribe calls, pending batch
children, batch accumulation buffers, active subscriptions), the free-id
pool, the bounded subscription sink capacity, and whether the task is still
running. -/
structure MuxState where
  pendingRequests : List (RequestId × Waiter)
  pendingBatches : List (RequestId × Nat × Nat)
  batches : List (Nat × List (Option RpcOutcome))
  subscriptions : List (SubId × String × List Json)
  freeIds : List RequestId
  nextBatchId : Nat
  subCapacity : Nat
  alive : Bool
  deriving Repr, DecidableEq

/-- Modelled from the spec: the state of a freshly built client — empty
registry, the full id pool `[0, maxSlots)`, and a running task. -/
def initState (maxSlots subCapacity : Nat) : MuxState :=
  { pendingRequests := [], pendingBatches := [], batches := [],
    subscriptions := [], freeIds := List.range maxSlots, nextBatchId := 0,
    subCapacity := subCapacity, alive := true }

/-- Placeholder outcome used only to extract values from slots that are
already known to be filled. -/
def dummyOutcome : RpcOutcome := RpcOutcome.err ⟨0, ""⟩

/-- Modelled from the spec: termination of the multiplexer — every pending
waiter (single, subscribe and batch) is completed with `RestartNeeded`
carrying the cause, the registry is cleared, the subscription sinks are
closed and the task stops. -/
def terminateAll (s : MuxState) (reason : String) : MuxState × List MuxEvent :=
  ({ s with pendingRequests := [], pendingBatches := [], batches := [],
            subscriptions := [], alive := false },
   s.pendingRequests.map
       (fun p => MuxEvent.answerErr p.1 (ClientError.RestartNeeded reason))
     ++ s.batches.map
       (fun b => MuxEvent.answerBatchErr b.1 (ClientError.RestartNeeded reason)))

/-- Modelled from the spec: a plausible subscription identifier inside a
subscribe confirmation result — a string or an integer; anything else is
rejected with `InvalidSubscriptionId`. -/
def subIdOfJson : Json → Option SubId
  | Json.num n => if 0 ≤ n then some (SubId.Num n.toNat) else none
  | Json.str s => some (SubId.Str s)
  | _ => none

/-- Modelled from the spec: handling of a single response frame
`\x7bid, result\x7d` or `\x7bid, error\x7d`.  The id is looked up in
`pending_requests`, then in `pending_batches`; a single waiter is resolved
and its id released; a subscribe waiter is either promoted to an active
subscription or failed; a batch child fills its slot, and the batch resolves
in caller order once every slot is filled; an id present in neither registry
is a protocol violation that terminates the multiplexer with
`RestartNeeded("Invalid request ID")`. -/
def handleResponse (s : MuxState) (rid : RequestId) (out : RpcOutcome) :
    MuxState × List MuxEvent :=
  match assocLookup s.pendingRequests rid with
  | some Waiter.Single =>
    ({ s with pendingRequests := assocRemove s.pendingRequests rid,
              freeIds := s.freeIds ++ [rid] },
     [match out with
      | RpcOutcome.ok v => MuxEvent.answerOk rid v
      | RpcOutcome.err e => MuxEvent.answerErr rid (ClientError.Request e)])
  | some (Waiter.SubscribeReq unsub) =>
    (match out with
     | RpcOutcome.ok v =>
       match subIdOfJson v with
       | some sub =>
         ({ s with pendingRequests := assocRemove s.pendingRequests rid,
                   freeIds := s.freeIds ++ [rid],
                   subscriptions := s.subscriptions ++ [(sub, unsub, [])] },
          [MuxEvent.subscribed rid sub])
       | none =>
         ({ s with pendingRequests := assocRemove s.pendingRequests rid,
                   freeIds := s.freeIds ++ [rid] },
          [MuxEvent.answerErr rid ClientError.InvalidSubscriptionId])
     | RpcOutcome.err e =>
       ({ s with pendingRequests := assocRemove s.pendingRequests rid,
                 freeIds := s.freeIds ++ [rid] },
        [MuxEvent.answerErr rid (ClientError.Request e)]))
  | none =>
    match assocLookup s.pendingBatches rid with
    | some (bid, slot) =>
      let batches1 := assocUpdate s.batches bid (fun slots => slots.set slot (some out))
      let s1 := { s with pendingBatches := assocRemove s.pendingBatches rid,
                         freeIds := s.freeIds ++ [rid], batches := batches1 }
      match assocLookup batches1 bid with
      | some slots =>
        if slots.all Option.isSome then
          ({ s1 with batches := assocRemove batches1 bid },
           [MuxEvent.answerBatch bid (slots.map (fun o => o.getD dummyOutcome))])
        else (s1, [])
      | none => (s1, [])
    | none => terminateAll s "Invalid request ID"

/-- Modelled from the spec: bounded enqueue into a subscription sink with
the drop-oldest overflow policy. -/
def enqueueBounded (cap : Nat) (q : List Json) (v : Json) : List Json :=
  let q1 := q ++ [v]
  if q1.length ≤ cap then q1 else q1.drop (q1.length - cap)

/-- Modelled from the spec: handling of a server-pushed subscription
notification — the payload is enqueued to the sink of the subscription the
frame names; a notification for an unknown subscription is silently
dropped. -/
def handleSubNotif (s : MuxState) (sub : SubId) (payload : Json) :
    MuxState × List MuxEvent :=
  match assocLookup s.subscriptions sub with
  | none => (s, [])
  | some _ =>
    ({ s with subscriptions := (assocUpdate s.subscriptions sub
         (fun r => (r.1, enqueueBounded s.subCapacity r.2 payload))) }, [])

/-- Modelled from the spec: command handling — `StartRequest` and
`StartSubscribe` acquire one id (failing fast with `MaxSlotsExceeded`),
register a waiter and write the framed call; `StartBatch` acquires one id
per call transactionally and registers the input-order permutation;
`StartUnsubscribe` removes the subscription and sends the unsubscribe call
as a notification; `SendNotification` frames and writes with no registry
change and no id consumed, resolving the caller at once. -/
def handleCommand (s : MuxState) : Command → MuxState × List MuxEvent
  | Command.StartRequest method params =>
    match s.freeIds with
    | [] => (s, [MuxEvent.rejected ClientError.MaxSlotsExceeded])
    | rid :: rest =>
      ({ s with freeIds := rest,
                pendingRequests := s.pendingRequests ++ [(rid, Waiter.Single)] },
       [MuxEvent.transportWrite
          (MethodCall.toJson ⟨Version.V2, method, params, Id.Num rid⟩)])
  | Command.StartSubscribe subMethod params unsubMethod =>
    if subMethod = unsubMethod then
      (s, [MuxEvent.rejected (ClientError.SubscriptionNameConflict subMethod)])
    else
      match s.freeIds with
      | [] => (s, [MuxEvent.rejected ClientError.MaxSlotsExceeded])
      | rid :: rest =>
        ({ s with freeIds := rest,
                  pendingRequests :=
                    s.pendingRequests ++ [(rid, Waiter.SubscribeReq unsubMethod)] },
         [MuxEvent.transportWrite
            (MethodCall.toJson ⟨Version.V2, subMethod, params, Id.Num rid⟩)])
  | Command.StartBatch calls =>
    if calls.length ≤ s.freeIds.length then
      let rids := s.freeIds.take calls.length
      let bid := s.nextBatchId
      ({ s with freeIds := s.freeIds.drop calls.length,
                nextBatchId := bid + 1,
                pendingBatches :=
                  s.pendingBatches ++ rids.enum.map (fun p => (p.2, bid, p.1)),
                batches := s.batches ++ [(bid, List.replicate calls.length none)] },
       [MuxEvent.transportWrite (Json.arr ((calls.zip rids).map
          (fun c => MethodCall.toJson ⟨Version.V2, c.1.1, c.1.2, Id.Num c.2⟩)))])
    else (s, [MuxEvent.rejected ClientError.MaxSlotsExceeded])
  | Command.StartUnsubscribe sub =>
    match assocLookup s.subscriptions sub with
    | none => (s, [])
    | some r =>
      ({ s with subscriptions := assocRemove s.subscriptions sub },
       [MuxEvent.transportWrite
          (Notification.toJson ⟨Version.V2, r.1, Params.None⟩)])
  | Command.SendNotification method params =>
    (s, [MuxEvent.transportWrite (Notification.toJson ⟨Version.V2, method, params⟩),
         MuxEvent.notifSent])

/-- Modelled from the spec: one iteration of the multiplexer's event loop.
A terminated task processes nothing.  A response frame whose wire id is not
an integer can match no issued id (the client only emits integers) and takes
the same invalid-request-id termination path. -/
def MuxState.step (s : MuxState) (i : MuxInput) : MuxState × List MuxEvent :=
  if s.alive then
    match i with
    | MuxInput.command c => handleCommand s c
    | MuxInput.frameResponse wireId out =>
      match wireId with
      | Id.Num n => handleResponse s n out
      | _ => terminateAll s "Invalid request ID"
    | MuxInput.frameSubNotif sub payload => handleSubNotif s sub payload
  else (s, [])

/-- Modelled from the spec: running the multiplexer over a list of inputs,
accumulating the emitted events. -/
def MuxState.run (s : MuxState) : List MuxInput → MuxState × List MuxEvent
  | [] => (s, [])
  | i :: rest =>
    let r1 := s.step i
    let r2 := r1.1.run rest
    (r2.1, r1.2 ++ r2.2)

/-- Modelled from the spec: `is_connected()` is true iff the background
task has not yet terminated. -/
def MuxState.isConnected (s : MuxState) : Bool := s.alive

/-- Modelled from the spec: pulling the next payload from a subscription's
sink (FIFO). -/
def MuxState.pullSub (s : MuxState) (sub : SubId) : Option (Json × MuxState) :=
  match assocLookup s.subscriptions sub with
  | some (um, v :: q) =>
    some (v, { s with subscriptions := (assocUpdate s.subscriptions sub
                 (fun _ => (um, q))) })
  | _ => none

/-- Id reconstructed for an `Invalid` call: the decoded `id` field when
present (defaulting to `Id.Null` when it fails to decode, a case the
theorems exclude), `Id.Null` when absent. -/
def invalidIdOf (fs : List (String × Json)) : Id :=
  match lookupField fs "id" with
  | Option.none => Id.Null
  | some iv => (Id.fromJson iv).getD Id.Null

section Lemmas

theorem decodeCalls_append (xs ys : List Json) (cs : List Call)
    (h : decodeCalls xs = some cs) :
    decodeCalls (xs ++ ys) = (decodeCalls ys).map (fun ds => cs ++ ds) := by
  induction xs generalizing cs with
  | nil =>
    simp [decodeCalls] at h
    subst h
    cases hys : decodeCalls ys <;> simp [hys]
  | cons x xs ih =>
    simp only [decodeCalls] at h
    cases hx : Call.fromJson x with
    | none => simp [hx] at h
    | some c =>
      cases hxs : decodeCalls xs with
      | none => simp [hx, hxs] at h
      | some cs' =>
        simp [hx, hxs] at h
        subst h
        simp only [List.cons_append, decodeCalls, hx, List.append_eq]
        rw [ih cs' hxs]
        cases hys : decodeCalls ys <;> simp

theorem lookupField_mem_keys (fs : List (String × Json)) (k : String) (v : Json)
    (h : lookupField fs k = some v) : k ∈ fs.map Prod.fst := by
  induction fs with
  | nil => simp [lookupField] at h
  | cons p rest ih =>
    simp only [lookupField] at h
    by_cases hk : k = p.1
    · simp [hk]
    · simp only [List.map_cons, List.mem_cons]
      right
      exact ih (by simpa [hk] using h)

theorem keysAllowed_false_of_unknown (allowed : List String)
    (fs : List (String × Json)) (k : String) (hk : k ∈ fs.map Prod.fst)
    (hna : ¬ k ∈ allowed) : keysAllowed allowed fs = false := by
  rcases List.mem_map.mp hk with ⟨p, hp, hpk⟩
  by_contra h
  have hall : keysAllowed allowed fs = true := by
    cases hh : keysAllowed allowed fs
    · exact absurd hh h
    · rfl
  have hc := (List.all_eq_true.mp hall) p hp
  have hmem : p.1 ∈ allowed := List.elem_iff.mp (by simpa using hc)
  exact hna (hpk ▸ hmem)

theorem invalidFromJson_shape (j : Json) :
    invalidFromJson j = none ∨ ∃ i, invalidFromJson j = some (Call.Invalid i) := by
  cases j with
  | obj fs =>
    simp only [invalidFromJson]
    by_cases hdup : fs.countP (fun p => p.1 == "id") ≤ 1
    · rw [if_pos hdup]
      cases hid : lookupField fs "id" with
      | none => exact Or.inr ⟨Id.Null, rfl⟩
      | some iv =>
        cases hi : Id.fromJson iv with
        | none => exact Or.inl (by simp [hi])
        | some i => exact Or.inr ⟨i, by simp [hi]⟩
    · rw [if_neg hdup]
      exact Or.inl rfl
  | null => exact Or.inl rfl
  | bool b => exact Or.inl rfl
  | num n => exact Or.inl rfl
  | str s => exact Or.inl rfl
  | arr xs => exact Or.inl rfl

end Lemmas

/-- C3: serializing the method call with jsonrpc version "2.0", method
"update", positional params [1,2] and integer id 1 produces exactly the byte
string `\x7b"jsonrpc":"2.0","method":"update","params":[1,2],"id":1\x7d`,
fields in that order, no whitespace. -/
theorem C3_method_call_serialize :
    Json.toCompactString (MethodCall.toJson
      ⟨Version.V2, "update", Params.Array [Json.num 1, Json.num 2], Id.Num 1⟩)
    = "\x7b\"jsonrpc\":\"2.0\",\"method\":\"update\",\"params\":[1,2],\"id\":1\x7d" := by
  rfl

/-- C5: deserializing `\x7b"jsonrpc":"2.0","method":"foobar"\x7d` yields a
`Notification` whose params is `Params::None`, and the same default applies
when the `params` field is JSON null. -/
theorem C5_notification_default_params :
    Notification.fromJson
        (Json.obj [("jsonrpc", Json.str "2.0"), ("method", Json.str "foobar")])
      = some ⟨Version.V2, "foobar", Params.None⟩
    ∧ Notification.fromJson
        (Json.obj [("jsonrpc", Json.str "2.0"), ("method", Json.str "foobar"),
                   ("params", Json.null)])
      = some ⟨Version.V2, "foobar", Params.None⟩ := by
  constructor <;> rfl

/-- C4 counterexample: the object `\x7b"id":true\x7d` matches neither the
method-call shape nor the notification shape and carries an `id` field, yet
its deserialization fails entirely (the `id` field is not a valid id), both
standalone and as a batch element — it does not yield an `Invalid` call
carrying that field. -/
theorem C4_counterexample :
    MethodCall.fromJson (Json.obj [("id", Json.bool true)]) = none
    ∧ Notification.fromJson (Json.obj [("id", Json.bool true)]) = none
    ∧ Request.fromJson (Json.obj [("id", Json.bool true)]) = none
    ∧ Request.fromJson (Json.arr [Json.obj [("id", Json.bool true)]]) = none := by
  refine ⟨rfl, rfl, rfl, rfl⟩

/-- C4 (amended): deserializing a JSON object that matches neither the
method-call shape nor the notification shape succeeds and yields an
`Invalid` call — carrying the object's decoded `id` field when present and
`Id::Null` when absent — provided the `id` field occurs at most once and,
when present, is itself a valid id (null, unsigned integer or string); this
holds standalone and as a batch element, and the invalid element does not
make deserialization of its sibling batch elements fail. -/
theorem C4_invalid_call (fs : List (String × Json)) (xs ys : List Json)
    (cs ds : List Call)
    (hm : MethodCall.fromJson (Json.obj fs) = none)
    (hn : Notification.fromJson (Json.obj fs) = none)
    (hdup : fs.countP (fun p => p.1 == "id") ≤ 1)
    (hid : (match lookupField fs "id" with
            | Option.none => true
            | some iv => (Id.fromJson iv).isSome) = true)
    (hxs : decodeCalls xs = some cs) (hys : decodeCalls ys = some ds) :
    Call.fromJson (Json.obj fs) = some (Call.Invalid (invalidIdOf fs))
    ∧ Request.fromJson (Json.obj fs)
        = some (Request.Single (Call.Invalid (invalidIdOf fs)))
    ∧ Request.fromJson (Json.arr (xs ++ Json.obj fs :: ys))
        = some (Request.Batch (cs ++ Call.Invalid (invalidIdOf fs) :: ds)) := by
  have hcall : Call.fromJson (Json.obj fs) = some (Call.Invalid (invalidIdOf fs)) := by
    simp only [Call.fromJson, hm, hn, invalidFromJson, invalidIdOf]
    rw [if_pos hdup]
    cases hk : lookupField fs "id" with
    | none => rfl
    | some iv =>
      simp only [hk] at hid
      cases hi : Id.fromJson iv with
      | none => simp [hi] at hid
      | some i => simp [hi]
  refine ⟨hcall, ?_, ?_⟩
  · simp [Request.fromJson, hcall]
  · have harr : Call.fromJson (Json.arr (xs ++ Json.obj fs :: ys)) = none := rfl
    have hmid : decodeCalls (Json.obj fs :: ys)
        = some (Call.Invalid (invalidIdOf fs) :: ds) := by
      simp [decodeCalls, hcall, hys]
    simp [Request.fromJson, harr, decodeCalls_append xs _ cs hxs, hmid]

/-- C4 witness: instantiating the amended claim at the empty object inside
the batch of the `request_deserialize_batch` test. -/
theorem C4_invalid_call_witness :
    Call.fromJson (Json.obj []) = some (Call.Invalid Id.Null)
    ∧ Request.fromJson (Json.obj [])
        = some (Request.Single (Call.Invalid Id.Null))
    ∧ Request.fromJson (Json.arr ([] ++ Json.obj [] ::
        [Json.obj [("jsonrpc", Json.str "2.0"), ("method", Json.str "update"),
                   ("params", Json.arr [Json.num 1])]]))
        = some (Request.Batch ([] ++ Call.Invalid Id.Null ::
            [Call.Notification ⟨Version.V2, "update", Params.Array [Json.num 1]⟩])) := by
  have h := C4_invalid_call [] []
    [Json.obj [("jsonrpc", Json.str "2.0"), ("method", Json.str "update"),
               ("params", Json.arr [Json.num 1])]]
    [] [Call.Notification ⟨Version.V2, "update", Params.Array [Json.num 1]⟩]
    rfl rfl (by decide) rfl rfl rfl
  exact h

/-- C10 counterexample: the object
`\x7b"jsonrpc":"2.0","method":"m","id":1,"extra":null\x7d` carries the valid
id 1, yet the untagged `Call` decoder classifies it as `Invalid` — not as a
`MethodCall` — because the unknown field `extra` makes the method-call shape
fail under `deny_unknown_fields`. -/
theorem C10_counterexample :
    lookupField [("jsonrpc", Json.str "2.0"), ("method", Json.str "m"),
                 ("id", Json.num 1), ("extra", Json.null)] "id"
      = some (Json.num 1)
    ∧ Id.fromJson (Json.num 1) = some (Id.Num 1)
    ∧ Call.fromJson (Json.obj [("jsonrpc", Json.str "2.0"), ("method", Json.str "m"),
                               ("id", Json.num 1), ("extra", Json.null)])
      = some (Call.Invalid (Id.Num 1)) := by
  refine ⟨rfl, rfl, rfl⟩

/-- C10 (amended): deserializing a JSON object directly as a `Notification`
fails whenever the object contains any field other than `jsonrpc`, `method`
and `params` — in particular an `id` field — and the untagged `Call` decoder
never classifies an object carrying an `id` field as a `Notification` (it
yields `MethodCall` when the method-call shape matches and `Invalid` or a
failure otherwise). -/
theorem C10_id_never_notification :
    (∀ (fs : List (String × Json)) (k : String), k ∈ fs.map Prod.fst →
      ¬ (k = "jsonrpc" ∨ k = "method" ∨ k = "params") →
      Notification.fromJson (Json.obj fs) = none)
    ∧ (∀ (fs : List (String × Json)) (iv : Json),
      lookupField fs "id" = some iv →
      ∀ n, Call.fromJson (Json.obj fs) ≠ some (Call.Notification n)) := by
  have hnotif : ∀ (fs : List (String × Json)) (k : String), k ∈ fs.map Prod.fst →
      ¬ (k = "jsonrpc" ∨ k = "method" ∨ k = "params") →
      Notification.fromJson (Json.obj fs) = none := by
    intro fs k hk hna
    have hfalse : keysAllowed ["jsonrpc", "method", "params"] fs = false :=
      keysAllowed_false_of_unknown _ fs k hk (by simpa using hna)
    simp [Notification.fromJson, hfalse]
  refine ⟨hnotif, ?_⟩
  intro fs iv hiv n
  have hk : "id" ∈ fs.map Prod.fst := lookupField_mem_keys fs "id" iv hiv
  have hn : Notification.fromJson (Json.obj fs) = none :=
    hnotif fs "id" hk (by simp)
  simp only [Call.fromJson, hn]
  cases hm : MethodCall.fromJson (Json.obj fs) with
  | some m => simp
  | none =>
    simp only
    rcases invalidFromJson_shape (Json.obj fs) with h | ⟨i, h⟩ <;> simp [h]

/-- C10 witness: instantiating the amended claim at the C10 counterexample
object, whose `id` key is unknown to the notification shape. -/
theorem C10_id_never_notification_witness :
    Notification.fromJson (Json.obj [("jsonrpc", Json.str "2.0"),
        ("method", Json.str "m"), ("id", Json.num 1), ("extra", Json.null)]) = none
    ∧ ∀ n, Call.fromJson (Json.obj [("jsonrpc", Json.str "2.0"),
        ("method", Json.str "m"), ("id", Json.num 1), ("extra", Json.null)])
      ≠ some (Call.Notification n) :=
  ⟨C10_id_never_notification.1 _ "id" (by simp) (by simp),
   fun n => C10_id_never_notification.2
     [("jsonrpc", Json.str "2.0"), ("method", Json.str "m"),
      ("id", Json.num 1), ("extra", Json.null)] (Json.num 1) rfl n⟩

/-- C9: for every `MethodCall` with version "2.0", an integer id and
positional array params, deserializing its serialization as a `Call` yields
`Call::MethodCall` of a value equal to the original. -/
theorem C9_roundtrip (m : MethodCall) (n : Nat) (xs : List Json)
    (hid : m.id = Id.Num n) (hp : m.params = Params.Array xs) :
    Call.fromJson (MethodCall.toJson m) = some (Call.MethodCall m) := by
  obtain ⟨ver, method, params, i⟩ := m
  cases ver
  simp only at hid hp
  subst hid hp
  simp [MethodCall.toJson, Call.fromJson, MethodCall.fromJson, Version.toJson,
        Version.fromJson, Id.toJson, Id.fromJson, Params.toJson, Params.fromJson,
        lookupField, nodupKeys, keysAllowed, Int.toNat_ofNat]

/-- C9 witness: the round trip evaluated at the `update` call of the
serializer test. -/
theorem C9_roundtrip_witness :
    Call.fromJson (MethodCall.toJson
        ⟨Version.V2, "update", Params.Array [Json.num 1, Json.num 2], Id.Num 1⟩)
      = some (Call.MethodCall
        ⟨Version.V2, "update", Params.Array [Json.num 1, Json.num 2], Id.Num 1⟩) :=
  C9_roundtrip _ 1 [Json.num 1, Json.num 2] rfl rfl

/-- Example state shared by the concrete witnesses: a fresh client with an
8-id pool and sink capacity 4 that has submitted one single request, which
was assigned id 0 — the situation of the `method_call_works`,
`method_not_found_works`, `response_with_wrong_id` and `is_connected_works`
tests. -/
def exampleSingleState : MuxState :=
  (handleCommand (initState 8 4) (Command.StartRequest "say_hello" Params.None)).1

section MuxLemmas

theorem assocLookup_assocRemove_ne {κ α : Type} [DecidableEq κ]
    (l : List (κ × α)) (q m : κ) (h : m ≠ q) :
    assocLookup (assocRemove l q) m = assocLookup l m := by
  induction l with
  | nil => rfl
  | cons p rest ih =>
    obtain ⟨k, a⟩ := p
    by_cases hq : q = k
    · rw [assocRemove, if_pos hq, ih, assocLookup]
      simp [show ¬ m = k from fun hmk => h (hmk.trans hq.symm)]
    · rw [assocRemove, if_neg hq, assocLookup, assocLookup]
      by_cases hm : m = k
      · simp [hm]
      · simp [hm, ih]

theorem assocLookup_assocUpdate_self {κ α : Type} [DecidableEq κ]
    (l : List (κ × α)) (q : κ) (f : α → α) :
    assocLookup (assocUpdate l q f) q = (assocLookup l q).map f := by
  induction l with
  | nil => rfl
  | cons p rest ih =>
    obtain ⟨k, a⟩ := p
    simp only [assocUpdate, List.map_cons]
    by_cases hq : k = q
    · subst hq
      rw [if_pos rfl]
      simp [assocLookup]
    · simp only [if_neg hq]
      rw [assocLookup, assocLookup]
      simp only [show ¬ q = k from fun h => hq h.symm, if_neg, ite_false]
      simpa [assocUpdate] using ih

theorem MuxState.step_dead (s : MuxState) (i : MuxInput) (h : s.alive = false) :
    s.step i = (s, []) := by
  simp [MuxState.step, h]

theorem MuxState.run_dead (s : MuxState) (inputs : List MuxInput)
    (h : s.alive = false) : s.run inputs = (s, []) := by
  induction inputs with
  | nil => rfl
  | cons i rest ih => simp [MuxState.run, MuxState.step_dead s i h, ih]

end MuxLemmas

/-- C7: `notification(method, params)` resolves with success as soon as the
frame is handed to the transport — the very step that writes the serialized
notification also emits the success completion — consumes no request id
(the whole state, the free-id pool included, is unchanged) and awaits no
server reply. -/
theorem C7_notification_no_id (s : MuxState) (method : String) (params : Params)
    (halive : s.alive = true) :
    (s.step (MuxInput.command (Command.SendNotification method params))).1 = s
    ∧ (s.step (MuxInput.command (Command.SendNotification method params))).2
      = [MuxEvent.transportWrite (Notification.toJson ⟨Version.V2, method, params⟩),
         MuxEvent.notifSent] := by
  constructor <;> simp [MuxState.step, handleCommand, halive]

/-- C7 witness: the notification command of the `notif_works` test evaluated
on a fresh client. -/
theorem C7_notification_no_id_witness :
    ((initState 8 4).step
        (MuxInput.command (Command.SendNotification "notif" Params.None))).1
      = initState 8 4
    ∧ ((initState 8 4).step
        (MuxInput.command (Command.SendNotification "notif" Params.None))).2
      = [MuxEvent.transportWrite
           (Notification.toJson ⟨Version.V2, "notif", Params.None⟩),
         MuxEvent.notifSent] :=
  C7_notification_no_id (initState 8 4) "notif" Params.None rfl

/-- C6: when a single request with id `n` is pending, a result frame for `n`
completes that caller with the server's result, and an error frame for `n`
fails that caller with `Request` carrying the server's error object; in both
cases the session stays alive and, for the error, no other waiter is
touched. -/
theorem C6_request_result_or_error (s : MuxState) (n : RequestId) (v : Json)
    (e : RpcErrorObj) (halive : s.alive = true)
    (hw : assocLookup s.pendingRequests n = some Waiter.Single) :
    ((s.step (MuxInput.frameResponse (Id.Num n) (RpcOutcome.ok v))).2
        = [MuxEvent.answerOk n v]
      ∧ (s.step (MuxInput.frameResponse (Id.Num n) (RpcOutcome.ok v))).1.alive = true)
    ∧ ((s.step (MuxInput.frameResponse (Id.Num n) (RpcOutcome.err e))).2
        = [MuxEvent.answerErr n (ClientError.Request e)]
      ∧ (s.step (MuxInput.frameResponse (Id.Num n) (RpcOutcome.err e))).1.alive = true
      ∧ ∀ m, m ≠ n →
          assocLookup (s.step (MuxInput.frameResponse (Id.Num n)
              (RpcOutcome.err e))).1.pendingRequests m
            = assocLookup s.pendingRequests m) := by
  refine ⟨⟨?_, ?_⟩, ?_, ?_, ?_⟩
  · simp [MuxState.step, halive, handleResponse, hw]
  · simp [MuxState.step, halive, handleResponse, hw]
  · simp [MuxState.step, halive, handleResponse, hw]
  · simp [MuxState.step, halive, handleResponse, hw]
  · intro m hm
    simp [MuxState.step, halive, handleResponse, hw,
          assocLookup_assocRemove_ne s.pendingRequests n m hm]

/-- C6 witness: the `method_call_works` and `method_not_found_works`
scenarios — id 0 pending, server result `"hello"` or error object
`(-32601, "Method not found")`. -/
theorem C6_request_result_or_error_witness :
    ((exampleSingleState.step (MuxInput.frameResponse (Id.Num 0)
        (RpcOutcome.ok (Json.str "hello")))).2
      = [MuxEvent.answerOk 0 (Json.str "hello")])
    ∧ ((exampleSingleState.step (MuxInput.frameResponse (Id.Num 0)
        (RpcOutcome.err ⟨METHOD_NOT_FOUND_CODE, METHOD_NOT_FOUND_MSG⟩))).2
      = [MuxEvent.answerErr 0 (ClientError.Request
          ⟨METHOD_NOT_FOUND_CODE, METHOD_NOT_FOUND_MSG⟩)])
    ∧ (exampleSingleState.step (MuxInput.frameResponse (Id.Num 0)
        (RpcOutcome.err ⟨METHOD_NOT_FOUND_CODE, METHOD_NOT_FOUND_MSG⟩))).1.alive
      = true :=
  have h := C6_request_result_or_error exampleSingleState 0 (Json.str "hello")
    ⟨METHOD_NOT_FOUND_CODE, METHOD_NOT_FOUND_MSG⟩ (by decide) (by decide)
  ⟨h.1.1, h.2.1, h.2.2.1⟩

/-- C1: a single response whose integer id is in neither the pending-request
registry nor the pending-batch registry terminates the multiplexer — every
outstanding single or subscribe waiter and every outstanding batch waiter is
completed with `RestartNeeded "Invalid request ID"`, and `is_connected()`
returns false from that step on, whatever inputs follow. -/
theorem C1_unknown_id_terminates (s : MuxState) (n : RequestId) (out : RpcOutcome)
    (halive : s.alive = true)
    (hnr : assocLookup s.pendingRequests n = none)
    (hnb : assocLookup s.pendingBatches n = none) :
    (s.step (MuxInput.frameResponse (Id.Num n) out)).1.isConnected = false
    ∧ (∀ rid w, (rid, w) ∈ s.pendingRequests →
        MuxEvent.answerErr rid (ClientError.RestartNeeded "Invalid request ID")
          ∈ (s.step (MuxInput.frameResponse (Id.Num n) out)).2)
    ∧ (∀ bid slots, (bid, slots) ∈ s.batches →
        MuxEvent.answerBatchErr bid (ClientError.RestartNeeded "Invalid request ID")
          ∈ (s.step (MuxInput.frameResponse (Id.Num n) out)).2)
    ∧ (∀ inputs, (((s.step (MuxInput.frameResponse (Id.Num n) out)).1.run
        inputs).1.isConnected = false)) := by
  have hstep : s.step (MuxInput.frameResponse (Id.Num n) out)
      = terminateAll s "Invalid request ID" := by
    simp [MuxState.step, halive, handleResponse, hnr, hnb]
  refine ⟨?_, ?_, ?_, ?_⟩
  · simp [hstep, terminateAll, MuxState.isConnected]
  · intro rid w hmem
    simp only [hstep, terminateAll, List.mem_append]
    exact Or.inl (List.mem_map.mpr ⟨(rid, w), hmem, rfl⟩)
  · intro bid slots hmem
    simp only [hstep, terminateAll, List.mem_append]
    exact Or.inr (List.mem_map.mpr ⟨(bid, slots), hmem, rfl⟩)
  · intro inputs
    have hdead : (s.step (MuxInput.frameResponse (Id.Num n) out)).1.alive = false := by
      simp [hstep, terminateAll]
    simp [MuxState.run_dead _ inputs hdead, MuxState.isConnected, hdead]

/-- C1 witness: the `response_with_wrong_id` and `is_connected_works`
scenario — the client emitted id 0, the server answers id 99; the pending
request fails with `RestartNeeded "Invalid request ID"` and `is_connected()`
is false afterwards. -/
theorem C1_unknown_id_terminates_witness :
    (exampleSingleState.step (MuxInput.frameResponse (Id.Num 99)
        (RpcOutcome.ok (Json.str "foo")))).1.isConnected = false
    ∧ MuxEvent.answerErr 0 (ClientError.RestartNeeded "Invalid request ID")
        ∈ (exampleSingleState.step (MuxInput.frameResponse (Id.Num 99)
            (RpcOutcome.ok (Json.str "foo")))).2
    ∧ ((exampleSingleState.step (MuxInput.frameResponse (Id.Num 99)
        (RpcOutcome.ok (Json.str "foo")))).1.run
          [MuxInput.command (Command.StartRequest "say_hello" Params.None)]).1.isConnected
      = false :=
  have h := C1_unknown_id_terminates exampleSingleState 99
    (RpcOutcome.ok (Json.str "foo")) (by decide) (by decide) (by decide)
  ⟨h.1, h.2.1 0 Waiter.Single (by decide), h.2.2.2
    [MuxInput.command (Command.StartRequest "say_hello" Params.None)]⟩

theorem enqueueBounded_no_drop (cap : Nat) (q : List Json) (v : Json)
    (h : q.length + 1 ≤ cap) : enqueueBounded cap q v = q ++ [v] := by
  simp only [enqueueBounded]
  rw [if_pos (by simpa using h)]

theorem subNotif_run_appends (payloads : List Json) :
    ∀ (s : MuxState) (sub : SubId) (um : String) (q : List Json),
    s.alive = true →
    assocLookup s.subscriptions sub = some (um, q) →
    q.length + payloads.length ≤ s.subCapacity →
    assocLookup ((s.run (payloads.map (MuxInput.frameSubNotif sub))).1).subscriptions sub
      = some (um, q ++ payloads)
    ∧ ((s.run (payloads.map (MuxInput.frameSubNotif sub))).1).alive = true := by
  induction payloads with
  | nil =>
    intro s sub um q halive hsub _
    constructor
    · simpa [MuxState.run] using hsub
    · simpa [MuxState.run] using halive
  | cons v rest ih =>
    intro s sub um q halive hsub hcap
    have hcap' : q.length + (rest.length + 1) ≤ s.subCapacity := by
      simpa using hcap
    have hstep : s.step (MuxInput.frameSubNotif sub v)
        = ({ s with subscriptions := (assocUpdate s.subscriptions sub
             (fun r => (r.1, enqueueBounded s.subCapacity r.2 v))) }, []) := by
      simp [MuxState.step, halive, handleSubNotif, hsub]
    have hq1 : enqueueBounded s.subCapacity q v = q ++ [v] :=
      enqueueBounded_no_drop _ _ _ (by omega)
    have hlook : assocLookup (assocUpdate s.subscriptions sub
        (fun r => (r.1, enqueueBounded s.subCapacity r.2 v))) sub
        = some (um, q ++ [v]) := by
      rw [assocLookup_assocUpdate_self, hsub]
      simp [hq1]
    simp only [List.map_cons, MuxState.run, hstep]
    have := ih ({ s with subscriptions := (assocUpdate s.subscriptions sub
        (fun r => (r.1, enqueueBounded s.subCapacity r.2 v))) }) sub um (q ++ [v])
      halive hlook (by simp; omega)
    simpa using this

/-- C8: after a subscription is live with an empty sink, pushing a sequence
of server notifications for its id (within the sink capacity) enqueues every
payload, the sink holds them in exactly the order the server sent them, and
the first pull yields the first pushed payload. -/
theorem C8_subscription_order (s : MuxState) (sub : SubId) (um : String)
    (payloads : List Json)
    (halive : s.alive = true)
    (hsub : assocLookup s.subscriptions sub = some (um, []))
    (hcap : payloads.length ≤ s.subCapacity) :
    assocLookup ((s.run (payloads.map (MuxInput.frameSubNotif sub))).1).subscriptions sub
      = some (um, payloads)
    ∧ (∀ v vs, payloads = v :: vs →
        (((s.run (payloads.map (MuxInput.frameSubNotif sub))).1).pullSub sub).map
          Prod.fst = some v) := by
  have h := subNotif_run_appends payloads s sub um [] halive hsub (by simpa using hcap)
  refine ⟨by simpa using h.1, ?_⟩
  intro v vs hpv
  subst hpv
  have h1 := h.1
  simp only [List.nil_append, List.map_cons] at h1
  simp only [MuxState.pullSub, List.map_cons]
  rw [h1]
  rfl

/-- C8 witness: the `subscription_works` scenario — subscription id 7 is
live, the server pushes `"hello my friend"`, and the first pull yields that
payload. -/
theorem C8_subscription_order_witness :
    (let s := { initState 8 4 with
        subscriptions := [(SubId.Num 7, "unsubscribe_hello", [])] }
     assocLookup ((s.run [MuxInput.frameSubNotif (SubId.Num 7)
         (Json.str "hello my friend")]).1).subscriptions (SubId.Num 7)
       = some ("unsubscribe_hello", [Json.str "hello my friend"])
     ∧ (((s.run [MuxInput.frameSubNotif (SubId.Num 7)
         (Json.str "hello my friend")]).1).pullSub (SubId.Num 7)).map Prod.fst
       = some (Json.str "hello my friend")) :=
  have h := C8_subscription_order
    ({ initState 8 4 with
       subscriptions := [(SubId.Num 7, "unsubscribe_hello", [])] })
    (SubId.Num 7) "unsubscribe_hello" [Json.str "hello my friend"]
    (by decide) (by decide) (by decide)
  ⟨h.1, h.2 (Json.str "hello my friend") [] rfl⟩

/-- Mid-flight pending-batch registry for a batch of `k` calls (batch index
0) of which the child ids listed in `done` have already been answered:
request id `i` maps to slot `i`. -/
def midPB (k : Nat) (done : List Nat) : List (RequestId × Nat × Nat) :=
  ((List.range k).filter (fun i => !(done.contains i))).map (fun i => (i, 0, i))

/-- Mid-flight accumulation buffer of the batch: slot `i` holds the `i`-th
expected outcome when `i` is done and is still empty otherwise. -/
def midSlots (vs : List RpcOutcome) (done : List Nat) : List (Option RpcOutcome) :=
  (List.range vs.length).map (fun i => if done.contains i then vs.get? i else none)

/-- Mid-flight multiplexer state of a client whose only outstanding work is
one batch (batch index 0) expecting the outcomes `vs`, of which the child
ids in `done` have been answered. -/
def midState (vs : List RpcOutcome) (done : List Nat) (f : List RequestId)
    (nb cap : Nat) : MuxState :=
  { pendingRequests := [], pendingBatches := midPB vs.length done,
    batches := [(0, midSlots vs done)], subscriptions := [],
    freeIds := f, nextBatchId := nb, subCapacity := cap, alive := true }

section BatchLemmas

theorem assocLookup_map_key {α : Type} (l : List Nat) (g : Nat → α) (q : Nat) :
    assocLookup (l.map (fun i => (i, g i))) q
      = if q ∈ l then some (g q) else none := by
  induction l with
  | nil => rfl
  | cons k rest ih =>
    rw [List.map_cons, assocLookup]
    by_cases hq : q = k
    · subst hq
      simp
    · simp [hq, ih]

theorem assocRemove_map_key {α : Type} (l : List Nat) (g : Nat → α) (q : Nat) :
    assocRemove (l.map (fun i => (i, g i))) q
      = (l.filter (fun i => !(i == q))).map (fun i => (i, g i)) := by
  induction l with
  | nil => rfl
  | cons k rest ih =>
    rw [List.map_cons, assocRemove, List.filter_cons]
    by_cases hq : q = k
    · subst hq
      simp [ih]
    · have : (k == q) = false := by
        simp [Ne.symm hq]
      simp [this, show ¬ q = k from hq, ih]

theorem midPB_lookup (k : Nat) (done : List Nat) (i : Nat) (hik : i < k)
    (hid : ¬ i ∈ done) : assocLookup (midPB k done) i = some (0, i) := by
  rw [midPB, assocLookup_map_key]
  rw [if_pos]
  exact List.mem_filter.mpr ⟨List.mem_range.mpr hik, by
    simp [List.elem_iff, hid]⟩

theorem midPB_remove (k : Nat) (done : List Nat) (i : Nat) :
    assocRemove (midPB k done) i = midPB k (i :: done) := by
  rw [midPB, midPB, assocRemove_map_key, List.filter_filter]
  refine congrArg _ (List.filter_congr ?_)
  intro j _
  show (!(j == i) && !(done.contains j)) = !((i :: done).contains j)
  have : (i :: done).contains j = ((j == i) || done.contains j) := rfl
  rw [this, Bool.not_or]

theorem midSlots_length (vs : List RpcOutcome) (done : List Nat) :
    (midSlots vs done).length = vs.length := by
  simp [midSlots]

theorem midSlots_getElem (vs : List RpcOutcome) (done : List Nat) (j : Nat)
    (h : j < (midSlots vs done).length) :
    (midSlots vs done)[j] = if done.contains j then vs.get? j else none := by
  have hj : j < vs.length := by simpa [midSlots_length] using h
  simp [midSlots, List.getElem_map, List.getElem_range]

theorem midSlots_set (vs : List RpcOutcome) (done : List Nat) (i : Nat)
    (o : RpcOutcome) (ho : vs.get? i = some o) :
    (midSlots vs done).set i (some o) = midSlots vs (i :: done) := by
  have hi : i < vs.length := by
    by_contra hlt
    rw [List.get?_eq_none.mpr (Nat.le_of_not_lt hlt)] at ho
    exact Option.noConfusion ho
  refine List.ext_getElem (by simp [midSlots_length]) ?_
  intro j h1 h2
  have hj : j < vs.length := by simpa [midSlots_length] using h2
  rw [List.getElem_set]
  by_cases hij : i = j
  · subst hij
    rw [if_pos rfl, midSlots_getElem]
    have hc : (i :: done).contains i = true := by
      simp [List.elem_iff]
    have ho' : vs[i]? = some o := by
      rw [← List.get?_eq_getElem?]
      exact ho
    rw [hc]
    simp [ho']
  · rw [if_neg hij, midSlots_getElem, midSlots_getElem]
    have hji : (j == i) = false := beq_eq_false_iff_ne.mpr (fun h => hij h.symm)
    have hcc : (i :: done).contains j = done.contains j := by
      show ((j == i) || done.contains j) = done.contains j
      rw [hji, Bool.false_or]
    rw [hcc]

theorem midSlots_all_isSome (vs : List RpcOutcome) (done : List Nat)
    (hfull : ∀ j, j < vs.length → j ∈ done) :
    (midSlots vs done).all Option.isSome = true := by
  rw [List.all_eq_true]
  intro o ho
  rcases List.mem_map.mp ho with ⟨j, hj, hval⟩
  have hjlt : j < vs.length := List.mem_range.mp hj
  have hc : done.contains j = true := List.elem_iff.mpr (hfull j hjlt)
  rw [hc, if_pos rfl] at hval
  cases hget : vs.get? j with
  | none =>
    rw [List.get?_eq_none] at hget
    omega
  | some v =>
    rw [hget] at hval
    simp [← hval]

theorem midSlots_not_all (vs : List RpcOutcome) (done : List Nat) (j : Nat)
    (hjlt : j < vs.length) (hj : ¬ j ∈ done) :
    (midSlots vs done).all Option.isSome = false := by
  rw [List.all_eq_false]
  refine ⟨none, ?_, by simp⟩
  rw [midSlots]
  refine List.mem_map.mpr ⟨j, List.mem_range.mpr hjlt, ?_⟩
  have hc : done.contains j = false := by
    simp [List.elem_iff, hj]
  rw [hc]
  simp

theorem midSlots_extract (vs : List RpcOutcome) (done : List Nat)
    (hfull : ∀ j, j < vs.length → j ∈ done) :
    (midSlots vs done).map (fun o => o.getD dummyOutcome) = vs := by
  refine List.ext_getElem (by simp [midSlots_length]) ?_
  intro j h1 h2
  rw [List.getElem_map, midSlots_getElem]
  have hc : done.contains j = true := List.elem_iff.mpr (hfull j h2)
  rw [hc, if_pos rfl, List.get?_eq_getElem?, List.getElem?_eq_getElem h2]
  rfl

theorem midState_step (vs : List RpcOutcome) (done : List Nat)
    (f : List RequestId) (nb cap : Nat) (i : Nat) (o : RpcOutcome)
    (hio : vs.get? i = some o) (hilt : i < vs.length) (hid : ¬ i ∈ done) :
    (midState vs done f nb cap).step (MuxInput.frameResponse (Id.Num i) o)
      = (if (midSlots vs (i :: done)).all Option.isSome then
           ({ midState vs (i :: done) (f ++ [i]) nb cap with batches := [] },
            [MuxEvent.answerBatch 0 ((midSlots vs (i :: done)).map
               (fun o => o.getD dummyOutcome))])
         else (midState vs (i :: done) (f ++ [i]) nb cap, [])) := by
  have hlook : assocLookup (midPB vs.length done) i = some (0, i) :=
    midPB_lookup vs.length done i hilt hid
  have hupd : assocUpdate [(0, midSlots vs done)] 0
      (fun slots => slots.set i (some o)) = [(0, midSlots vs (i :: done))] := by
    simp [assocUpdate, midSlots_set vs done i o hio]
  have hrem : assocRemove (midPB vs.length done) i = midPB vs.length (i :: done) :=
    midPB_remove vs.length done i
  rw [MuxState.step]
  simp only [midState, if_pos rfl]
  rw [handleResponse.eq_def]
  simp only [assocLookup, hlook, hupd, hrem]
  rw [midSlots_set vs done i o hio]
  simp [assocRemove]

theorem C2_run (vs : List RpcOutcome) :
    ∀ (arrivals : List (Nat × RpcOutcome)) (done : List Nat)
      (f : List RequestId) (nb cap : Nat),
    arrivals ≠ [] →
    (done ++ arrivals.map Prod.fst).Perm (List.range vs.length) →
    (∀ p ∈ arrivals, vs.get? p.1 = some p.2) →
    MuxEvent.answerBatch 0 vs ∈
      ((midState vs done f nb cap).run
        (arrivals.map (fun p => MuxInput.frameResponse (Id.Num p.1) p.2))).2 := by
  intro arrivals
  induction arrivals with
  | nil =>
    intro done f nb cap hne _ _
    exact absurd rfl hne
  | cons a rest ih =>
    intro done f nb cap _ hperm hmem
    obtain ⟨i, o⟩ := a
    have hio : vs.get? i = some o := hmem (i, o) (List.mem_cons_self _ _)
    have hilt : i < vs.length := by
      by_contra hlt
      rw [List.get?_eq_none.mpr (Nat.le_of_not_lt hlt)] at hio
      exact Option.noConfusion hio
    have hnodup : (done ++ i :: rest.map Prod.fst).Nodup := by
      have h0 := hperm.symm.nodup (List.nodup_range vs.length)
      simpa using h0
    rw [List.nodup_append] at hnodup
    obtain ⟨hdnodup, hconsnodup, hdisj⟩ := hnodup
    have hid : ¬ i ∈ done := fun hidone =>
      hdisj hidone (List.mem_cons_self _ _)
    have hstep := midState_step vs done f nb cap i o hio hilt hid
    rw [List.map_cons, MuxState.run]
    cases rest with
    | nil =>
      have hfull : ∀ j, j < vs.length → j ∈ (i :: done) := by
        intro j hj
        have hmemj : j ∈ done ++ [i] := by
          refine (hperm.mem_iff).mpr ?_
          exact List.mem_range.mpr hj
        rcases List.mem_append.mp hmemj with hl | hr
        · exact List.mem_cons_of_mem _ hl
        · rcases List.mem_singleton.mp hr with rfl
          exact List.mem_cons_self _ _
      have hall : (midSlots vs (i :: done)).all Option.isSome = true :=
        midSlots_all_isSome vs (i :: done) hfull
      rw [hstep, if_pos hall]
      simp [MuxState.run, midSlots_extract vs (i :: done) hfull]
    | cons b rest' =>
      have hbmem : vs.get? b.1 = some b.2 :=
        hmem b (List.mem_cons_of_mem _ (List.mem_cons_self _ _))
      have hblt : b.1 < vs.length := by
        by_contra hlt
        rw [List.get?_eq_none.mpr (Nat.le_of_not_lt hlt)] at hbmem
        exact Option.noConfusion hbmem
      have hbfst : b.1 ∈ (i :: (b :: rest').map Prod.fst).tail :=
        List.mem_cons_self _ _
      have hbne : ¬ b.1 ∈ (i :: done) := by
        intro hbin
        rcases List.mem_cons.mp hbin with hbi | hbd
        · have hnotin : ¬ i ∈ (b :: rest').map Prod.fst :=
            (List.nodup_cons.mp hconsnodup).1
          exact hnotin (hbi ▸ List.mem_map.mpr ⟨b, List.mem_cons_self _ _, rfl⟩)
        · exact hdisj hbd
            (List.mem_cons_of_mem _ (List.mem_map.mpr ⟨b, List.mem_cons_self _ _, rfl⟩))
      have hall : (midSlots vs (i :: done)).all Option.isSome = false :=
        midSlots_not_all vs (i :: done) b.1 hblt hbne
      rw [hstep, if_neg (by rw [hall]; exact Bool.false_ne_true)]
      have hperm' : ((i :: done) ++ (b :: rest').map Prod.fst).Perm
          (List.range vs.length) := by
        have hmid : (done ++ i :: (b :: rest').map Prod.fst).Perm
            (i :: (done ++ (b :: rest').map Prod.fst)) := List.perm_middle
        refine List.Perm.trans ?_ hperm
        simpa using hmid.symm
      have hrec := ih (i :: done) (f ++ [i]) nb cap (List.cons_ne_nil _ _) hperm'
        (fun p hp => hmem p (List.mem_cons_of_mem _ hp))
      simpa using hrec

theorem startBatch_initState (maxSlots cap : Nat) (calls : List (String × Params))
    (vs : List RpcOutcome) (hlen : vs.length = calls.length)
    (hk : calls.length ≤ maxSlots) :
    (handleCommand (initState maxSlots cap) (Command.StartBatch calls)).1
      = midState vs [] ((List.range maxSlots).drop calls.length) 1 cap := by
  have htake : (List.range maxSlots).take calls.length = List.range calls.length := by
    rw [List.take_range, Nat.min_eq_left hk]
  have hpb : (List.range calls.length).enum.map (fun p => (p.2, (0 : Nat), p.1))
      = midPB vs.length [] := by
    rw [midPB, hlen]
    have hfilt : (List.range calls.length).filter
        (fun i => !(([] : List Nat).contains i)) = List.range calls.length := by
      rw [show (fun i : Nat => !(([] : List Nat).contains i)) = (fun _ : Nat => true)
            from rfl]
      exact List.filter_true _
    rw [hfilt]
    refine List.ext_getElem (by simp) ?_
    intro j h1 h2
    rw [List.getElem_map, List.getElem_map, List.getElem_enum]
    simp [List.getElem_range]
  have hslots : List.replicate calls.length (none : Option RpcOutcome)
      = midSlots vs [] := by
    symm
    rw [List.eq_replicate_iff]
    refine ⟨by rw [midSlots_length, hlen], ?_⟩
    intro b hb
    rcases List.mem_map.mp hb with ⟨j, _, hval⟩
    exact hval.symm
  rw [handleCommand]
  rw [if_pos (by simpa [initState] using hk)]
  simp only [initState, htake, hpb, hslots, midState]
  simp

/-- C2: for every batch of K calls submitted on a fresh client, child id `i`
frames the `i`-th call in the caller's input order, and whenever the
server's K responses — the outcomes `vs`, correlated by request id — arrive
in any order whatsoever, the batch resolves with the vector `vs`: length K,
`i`-th element the response to the `i`-th call. -/
theorem C2_batch_order (maxSlots cap : Nat) (calls : List (String × Params))
    (vs : List RpcOutcome) (arrivals : List (Nat × RpcOutcome))
    (hne : calls ≠ []) (hk : calls.length ≤ maxSlots)
    (hlen : vs.length = calls.length)
    (hperm : arrivals.Perm vs.enum) :
    (handleCommand (initState maxSlots cap) (Command.StartBatch calls)).2
      = [MuxEvent.transportWrite (Json.arr
          ((calls.zip (List.range calls.length)).map
            (fun c => MethodCall.toJson ⟨Version.V2, c.1.1, c.1.2, Id.Num c.2⟩)))]
    ∧ MuxEvent.answerBatch 0 vs ∈
      (((handleCommand (initState maxSlots cap) (Command.StartBatch calls)).1).run
        (arrivals.map (fun p => MuxInput.frameResponse (Id.Num p.1) p.2))).2 := by
  have htake : (List.range maxSlots).take calls.length = List.range calls.length := by
    rw [List.take_range, Nat.min_eq_left hk]
  constructor
  · rw [handleCommand]
    rw [if_pos (by simpa [initState] using hk)]
    simp [initState, htake]
  · rw [startBatch_initState maxSlots cap calls vs hlen hk]
    refine C2_run vs arrivals [] _ 1 cap ?_ ?_ ?_
    · intro hnil
      subst hnil
      have henum : vs.enum = [] := List.perm_nil.mp hperm.symm
      have hvs : vs = [] := by
        have h0 : vs.enum.length = 0 := by rw [henum]; rfl
        rw [List.enum_length] at h0
        exact List.eq_nil_of_length_eq_zero h0
      rw [hvs] at hlen
      exact hne (List.eq_nil_of_length_eq_zero hlen.symm)
    · have h1 : (arrivals.map Prod.fst).Perm (vs.enum.map Prod.fst) :=
        hperm.map Prod.fst
      rw [List.enum_map_fst] at h1
      simpa using h1
    · intro p hp
      rw [List.get?_eq_getElem?]
      exact List.mem_enum_iff_getElem?.mp (hperm.subset hp)

/-- C2 witness: the `batch_request_out_of_order_response` scenario — three
calls, responses arriving in id order 2, 0, 1, resolving to the caller-order
vector hello / goodbye / here's your swag. -/
theorem C2_batch_order_witness :
    MuxEvent.answerBatch 0
        [RpcOutcome.ok (Json.str "hello"), RpcOutcome.ok (Json.str "goodbye"),
         RpcOutcome.ok (Json.str "here's your swag")] ∈
      (((handleCommand (initState 8 4) (Command.StartBatch
          [("say_hello", Params.None),
           ("say_goodbye", Params.Array [Json.num 0, Json.num 1, Json.num 2]),
           ("get_swag", Params.None)])).1).run
        ([((2 : Nat), RpcOutcome.ok (Json.str "here's your swag")),
          ((0 : Nat), RpcOutcome.ok (Json.str "hello")),
          ((1 : Nat), RpcOutcome.ok (Json.str "goodbye"))].map
          (fun p => MuxInput.frameResponse (Id.Num p.1) p.2))).2 :=
  (C2_batch_order 8 4
    [("say_hello", Params.None),
     ("say_goodbye", Params.Array [Json.num 0, Json.num 1, Json.num 2]),
     ("get_swag", Params.None)]
    [RpcOutcome.ok (Json.str "hello"), RpcOutcome.ok (Json.str "goodbye"),
     RpcOutcome.ok (Json.str "here's your swag")]
    [((2 : Nat), RpcOutcome.ok (Json.str "here's your swag")),
     ((0 : Nat), RpcOutcome.ok (Json.str "hello")),
     ((1 : Nat), RpcOutcome.ok (Json.str "goodbye"))]
    (by decide) (by decide) (by decide) (by decide)).2

end BatchLemmas

end Jsonrpsee
